import Mathlib

/-!
Verification of the comment-collection pipeline of `collect_comments.py`:
URL-to-identifier resolution (`extract_post_id`), paginated retrieval
(`CommentCollector.collect` / `_fetch_page`), record normalization
(`CommentCollector._comment_from_json`), CSV export
(`save_comments_to_csv`) and the CLI entry point (`main`).

The embedding represents Python values produced by `json.loads` as the
inductive `Json` (JSON `null` doubles as Python `None`), dictionaries as
association lists with unique keys, and raising code as `Except PyError`.
-/

/-- Python values produced by `json.loads`: `None`, `bool`, `int`
(float JSON numbers do not occur in the data this program consumes and
are not modelled), `str`, `list`, `dict`.  `Json.null` also stands for
the Python value `None`. -/
inductive Json where
  | null
  | bool (b : Bool)
  | num (n : Int)
  | str (s : String)
  | arr (items : List Json)
  | obj (fields : List (String × Json))

/-- Python exception classes raised by the code paths under
verification.  Each carries `str(exc)`. -/
inductive PyError where
  | valueError (msg : String)
  | httpError (msg : String)
  | urlError (msg : String)
  | jsonError (msg : String)
  | attributeError (msg : String)
  | typeError (msg : String)
deriving DecidableEq

/-- Python truthiness (`bool(v)`) of a `json.loads` value. -/
def pyTruthy : Json → Bool
  | .null => false
  | .bool b => b
  | .num n => n != 0
  | .str s => !s.isEmpty
  | .arr items => !items.isEmpty
  | .obj fields => !fields.isEmpty

/-- Lookup in a Python dict (field lists model dicts built by
`json.loads`, whose keys are unique; the first binding is taken). -/
def dictGet : List (String × Json) → String → Option Json
  | [], _ => none
  | (k, v) :: rest, key => if k = key then some v else dictGet rest key

/-- Python `d.get(key, default)`: the default is used only when the key
is absent (a stored `None` is returned as is). -/
def pyGetD (fields : List (String × Json)) (key : String) (dflt : Json) : Json :=
  (dictGet fields key).getD dflt

/-- Python `d.get(key)`: `None` when the key is absent. -/
def pyGet (fields : List (String × Json)) (key : String) : Json :=
  pyGetD fields key .null

/-- Python `v or {}`: `v` when truthy, else an empty dict. -/
def pyOr (v : Json) : Json :=
  if pyTruthy v then v else .obj []

/-- Treat a Python value as a dict; calling a dict method (such as
`.get`) on anything else raises `AttributeError`. -/
def asObj : Json → Except PyError (List (String × Json))
  | .obj fields => .ok fields
  | _ => .error (.attributeError "object has no attribute get")

/-- Treat a Python value as a list for iteration.  (Python would also
iterate strings and dicts; the payloads this program consumes carry
JSON arrays there, and every non-list still ends in a raised error a
step later, which is all the claims depend on.) -/
def asArr : Json → Except PyError (List Json)
  | .arr items => .ok items
  | _ => .error (.typeError "object is not iterable")

/-- Python `v.get(key)` on an arbitrary value: `AttributeError` unless
`v` is a dict. -/
def attrGet (v : Json) (key : String) : Except PyError Json :=
  match v with
  | .obj fields => .ok (pyGet fields key)
  | _ => .error (.attributeError "object has no attribute get")

/-- The `Comment` dataclass.  Python does not enforce the annotations,
so every field holds the raw Python value; `Json.null` is an absent
optional field. -/
structure Comment where
  comment_id : Json
  created_time : Json
  author_id : Json
  author_name : Json
  message : Json
  parent_id : Json
  like_count : Json

/-- Model of `CommentCollector._comment_from_json`: build a `Comment` from a raw
record, evaluating the constructor arguments in source order
(`from`-based fields before the `parent`-based one). -/
def commentFromJson (raw : Json) : Except PyError Comment :=
  match asObj raw with
  | .error e => .error e
  | .ok fields =>
    match attrGet (pyOr (pyGet fields "from")) "id" with
    | .error e => .error e
    | .ok authorId =>
      match attrGet (pyOr (pyGet fields "from")) "name" with
      | .error e => .error e
      | .ok authorName =>
        match attrGet (pyGetD fields "parent" (.obj [])) "id" with
        | .error e => .error e
        | .ok parentId =>
          .ok { comment_id := pyGetD fields "id" (.str "")
                created_time := pyGetD fields "created_time" (.str "")
                author_id := authorId
                author_name := authorName
                message := pyGetD fields "message" (.str "")
                parent_id := parentId
                like_count := pyGet fields "like_count" }

/-- The `for item in payload.get("data", []): comments.append(...)`
loop body: normalize records in order, aborting on the first raise. -/
def commentsOfData : List Json → Except PyError (List Comment)
  | [] => .ok []
  | item :: rest =>
    match commentFromJson item with
    | .error e => .error e
    | .ok c =>
      match commentsOfData rest with
      | .error e => .error e
      | .ok cs => .ok (c :: cs)

/-- C4: a raw record lacking `from`, `parent` and `like_count`
normalizes to a Comment whose `author_id`, `author_name`, `parent_id`
and `like_count` are all absent (`None`), and whose `message` and
`created_time` default to the empty string when those keys are also
absent. -/
theorem normalize_missing_optional_fields (fields : List (String × Json))
    (hfrom : dictGet fields "from" = none)
    (hparent : dictGet fields "parent" = none)
    (hlike : dictGet fields "like_count" = none) :
    commentFromJson (.obj fields) =
      .ok { comment_id := pyGetD fields "id" (.str "")
            created_time := pyGetD fields "created_time" (.str "")
            author_id := .null
            author_name := .null
            message := pyGetD fields "message" (.str "")
            parent_id := .null
            like_count := .null }
    ∧ (dictGet fields "message" = none → pyGetD fields "message" (.str "") = .str "")
    ∧ (dictGet fields "created_time" = none →
        pyGetD fields "created_time" (.str "") = .str "") := by
  refine ⟨?_, ?_, ?_⟩
  · simp [commentFromJson, asObj, attrGet, pyOr, pyGet, pyGetD, dictGet, hfrom, hparent, hlike,
      pyTruthy]
  · intro h; simp [pyGetD, h]
  · intro h; simp [pyGetD, h]

theorem normalize_missing_optional_fields_witness :
    dictGet [("id", Json.str "10_20")] "from" = none
    ∧ commentFromJson (.obj [("id", Json.str "10_20")]) =
        .ok { comment_id := .str "10_20", created_time := .str "", author_id := .null,
              author_name := .null, message := .str "", parent_id := .null,
              like_count := .null } :=
  ⟨rfl, (normalize_missing_optional_fields [("id", Json.str "10_20")] rfl rfl rfl).1⟩

/-- C10: normalization tolerates `from` being present with value
`null` (the author fields come out absent), but a `parent` key present
with value `null` makes it raise instead of producing a Comment with
`parent_id` absent. -/
theorem normalize_null_from_total_null_parent_raises :
    (∀ fields, dictGet fields "from" = some Json.null →
      dictGet fields "parent" = none →
      ∃ c, commentFromJson (.obj fields) = .ok c
        ∧ c.author_id = .null ∧ c.author_name = .null)
    ∧ (∀ fields, dictGet fields "parent" = some Json.null →
      ∃ e, commentFromJson (.obj fields) = .error e) := by
  constructor
  · intro fields hfrom hparent
    refine ⟨{ comment_id := pyGetD fields "id" (.str "")
              created_time := pyGetD fields "created_time" (.str "")
              author_id := .null
              author_name := .null
              message := pyGetD fields "message" (.str "")
              parent_id := .null
              like_count := pyGet fields "like_count" }, ?_, rfl, rfl⟩
    simp [commentFromJson, asObj, attrGet, pyOr, pyGet, pyGetD, dictGet, hfrom, hparent, pyTruthy]
  · intro fields hparent
    simp only [commentFromJson, asObj]
    cases hf : attrGet (pyOr (pyGet fields "from")) "id" with
    | error e => exact ⟨e, rfl⟩
    | ok authorId =>
      cases hn : attrGet (pyOr (pyGet fields "from")) "name" with
      | error e => exact ⟨e, rfl⟩
      | ok authorName =>
        refine ⟨.attributeError "object has no attribute get", ?_⟩
        simp [pyGetD, hparent, attrGet]

theorem normalize_null_from_total_null_parent_raises_witness :
    (∃ c, commentFromJson (.obj [("from", Json.null)]) = .ok c
      ∧ c.author_id = .null ∧ c.author_name = .null)
    ∧ (∃ e, commentFromJson (.obj [("parent", Json.null)]) = .error e) :=
  ⟨normalize_null_from_total_null_parent_raises.1 [("from", Json.null)] rfl rfl,
   normalize_null_from_total_null_parent_raises.2 [("parent", Json.null)] rfl⟩

/-! ### CSV export (`save_comments_to_csv`) -/

mutual
/-- Python `repr()` of a `json.loads` value, used by `str()` on
containers.  (String escape sequences inside `repr` of a `str` are not
modelled; no claim exercises container-valued cells.) -/
def pyRepr : Json → String
  | .null => "None"
  | .bool b => if b then "True" else "False"
  | .num n => toString n
  | .str s => "\x27" ++ s ++ "\x27"
  | .arr items => "[" ++ String.intercalate ", " (pyReprList items) ++ "]"
  | .obj fields => "\x7b" ++ String.intercalate ", " (pyReprFields fields) ++ "\x7d"

/-- Python `repr` of each element of a Python list. -/
def pyReprList : List Json → List String
  | [] => []
  | v :: rest => pyRepr v :: pyReprList rest

/-- Python `repr` of each `key: value` entry of a Python dict. -/
def pyReprFields : List (String × Json) → List String
  | [] => []
  | (k, v) :: rest => ("\x27" ++ k ++ "\x27: " ++ pyRepr v) :: pyReprFields rest
end

/-- Python `str()` of a `json.loads` value. -/
def pyStr : Json → String
  | .null => "None"
  | .bool b => if b then "True" else "False"
  | .num n => toString n
  | .str s => s
  | .arr items => pyRepr (.arr items)
  | .obj fields => pyRepr (.obj fields)

/-- The `csv` writer's rendering of one cell value: `None` becomes the
empty cell, everything else is `str()`-ed. -/
def pyStrCell : Json → String
  | .null => ""
  | v => pyStr v

/-- QUOTE_MINIMAL: a field is quoted iff it contains the delimiter, the
quote character, or a line-terminator character. -/
def needsQuote (cells : List Char) : Bool :=
  cells.any fun c => c == ',' || c == '"' || c == '\r' || c == '\n'

/-- Double every quote character (the csv writer's escaping inside a
quoted field). -/
def escapeQuotes : List Char → List Char
  | [] => []
  | c :: rest => if c = '"' then '"' :: '"' :: escapeQuotes rest else c :: escapeQuotes rest

/-- Render one CSV field under the default dialect (QUOTE_MINIMAL). -/
def csvField (s : String) : String :=
  if needsQuote s.toList then String.mk ('"' :: (escapeQuotes s.toList ++ ['"'])) else s

/-- The fixed header of `save_comments_to_csv`. -/
def fieldnames : List String :=
  ["comment_id", "created_time", "author_id", "author_name", "message", "parent_id",
   "like_count"]

/-- The row dict passed to `writer.writerow`, in `fieldnames` order. -/
def commentCells (c : Comment) : List String :=
  [pyStrCell c.comment_id, pyStrCell c.created_time, pyStrCell c.author_id,
   pyStrCell c.author_name, pyStrCell c.message, pyStrCell c.parent_id,
   pyStrCell c.like_count]

/-- All rows the writer emits: the header, then one row per comment in
input order. -/
def csvRows (comments : List Comment) : List (List String) :=
  fieldnames :: comments.map commentCells

/-- One physical CSV line under the default dialect: comma-joined
fields and the `\r\n` line terminator. -/
def csvLine (cells : List String) : String :=
  String.intercalate "," (cells.map csvField) ++ "\r\n"

/-- Model of `save_comments_to_csv`, restricted to the text actually written to
the sink (the path variant opens the file and writes the same text). -/
def save_comments_to_csv (comments : List Comment) : String :=
  String.join ((csvRows comments).map csvLine)

/-- Reader of a quoted-field body (the csv reader's in-quotes state):
a doubled quote is a literal quote, a single closing quote ends the
field.  Returns the field content and the remaining input. -/
def parseQuotedBody : List Char → Option (List Char × List Char)
  | [] => none
  | '"' :: '"' :: rest2 => (parseQuotedBody rest2).map fun p => ('"' :: p.1, p.2)
  | '"' :: rest => some ([], rest)
  | c :: rest => (parseQuotedBody rest).map fun p => (c :: p.1, p.2)

/-- Reader of one CSV field: a leading quote starts a quoted field,
otherwise the field runs to the next delimiter or line terminator. -/
def parseCsvField (cells : List Char) : Option (List Char × List Char) :=
  match cells with
  | [] => some ([], [])
  | c :: rest =>
    if c = '"' then parseQuotedBody rest
    else some (cells.takeWhile (fun x => !(x == ',' || x == '\r' || x == '\n')),
               cells.dropWhile (fun x => !(x == ',' || x == '\r' || x == '\n')))

theorem join_cons_append (x : String) (xs : List String) :
    String.join (x :: xs) = x ++ String.join xs := by
  have general : ∀ (ys : List String) (a : String),
      ys.foldl (· ++ ·) a = a ++ ys.foldl (· ++ ·) "" := by
    intro ys
    induction ys with
    | nil => intro a; simp [List.foldl_nil]
    | cons y ys ih =>
      intro a
      simp only [List.foldl_cons]
      rw [ih (a ++ y), ih ("" ++ y), String.append_assoc]
      simp
  show (x :: xs).foldl (· ++ ·) "" = x ++ xs.foldl (· ++ ·) ""
  simp only [List.foldl_cons]
  rw [general xs ("" ++ x)]
  simp

theorem parseQuotedBody_escape (l : List Char) :
    parseQuotedBody (escapeQuotes l ++ ['"']) = some (l, []) := by
  induction l with
  | nil => rfl
  | cons c rest ih =>
    by_cases hc : c = '"'
    · subst hc
      simp [escapeQuotes, parseQuotedBody, ih]
    · simp [escapeQuotes, parseQuotedBody, hc, ih]

/-- C5: the exporter emits exactly one header row holding the seven
column names in order, then one row per comment in input order; absent
optional fields render as empty cells; the empty sequence yields the
header row and nothing else. -/
theorem csv_export_shape (comments : List Comment) :
    (csvRows comments).length = comments.length + 1
    ∧ (csvRows comments).head? = some fieldnames
    ∧ fieldnames = ["comment_id", "created_time", "author_id", "author_name", "message",
        "parent_id", "like_count"]
    ∧ (∀ i (h : i < comments.length),
        (csvRows comments)[i + 1]? = some (commentCells (comments.get ⟨i, h⟩)))
    ∧ (∀ c, c.author_id = Json.null → c.author_name = Json.null →
        c.parent_id = Json.null → c.like_count = Json.null →
        commentCells c = [pyStrCell c.comment_id, pyStrCell c.created_time, "", "",
          pyStrCell c.message, "", ""])
    ∧ save_comments_to_csv [] =
        "comment_id,created_time,author_id,author_name,message,parent_id,like_count\r\n"
    ∧ save_comments_to_csv comments =
        csvLine fieldnames ++ String.join (comments.map fun c => csvLine (commentCells c)) := by
  refine ⟨by simp [csvRows], rfl, rfl, ?_, ?_, rfl, ?_⟩
  · intro i h
    simp [csvRows, List.getElem?_map, List.getElem?_eq_getElem h]
  · intro c h1 h2 h3 h4
    simp [commentCells, h1, h2, h3, h4, pyStrCell]
  · simp only [save_comments_to_csv, csvRows, List.map_cons]
    rw [join_cons_append, List.map_map]
    rfl

/-- The comment normalized from the spec's example record. -/
def exampleComment : Comment :=
  { comment_id := .str "10_20", created_time := .str "2024-01-01T00:00:00+0000",
    author_id := .null, author_name := .null, message := .str "hi", parent_id := .null,
    like_count := .null }

theorem csv_export_shape_witness :
    (0 : Nat) < [exampleComment].length
    ∧ (csvRows [exampleComment])[1]? = some (commentCells exampleComment)
    ∧ commentCells exampleComment =
        ["10_20", "2024-01-01T00:00:00+0000", "", "", "hi", "", ""]
    ∧ commentFromJson (.obj [("id", .str "10_20"),
        ("created_time", .str "2024-01-01T00:00:00+0000"), ("message", .str "hi")]) =
        .ok exampleComment
    ∧ save_comments_to_csv [exampleComment] =
        "comment_id,created_time,author_id,author_name,message,parent_id,like_count\r\n" ++
        "10_20,2024-01-01T00:00:00+0000,,,hi,,\r\n" := by
  have h := csv_export_shape [exampleComment]
  exact ⟨by decide, h.2.2.2.1 0 (by decide), rfl, rfl, rfl⟩

/-- C9: a message containing a comma and a newline is written as a
quoted, quote-escaped cell, and the csv reader parses that cell back
to exactly the original string. -/
theorem csv_message_roundtrip (c : Comment) (m : String)
    (hmsg : c.message = .str m)
    (hcomma : m.toList.contains ',' = true)
    (hnl : m.toList.contains '\n' = true) :
    (commentCells c)[4]? = some m
    ∧ csvField m = String.mk ('"' :: (escapeQuotes m.toList ++ ['"']))
    ∧ parseCsvField (csvField m).toList = some (m.toList, []) := by
  have hq : needsQuote m.toList = true := by
    rcases List.contains_iff_exists_mem_beq.mp hcomma with ⟨x, hx, hbeq⟩
    have hx' : x = ',' := by
      have := (beq_iff_eq (a := ',') (b := x)).mp hbeq
      exact this.symm
    exact List.any_eq_true.mpr ⟨x, hx, by simp [hx']⟩
  have hq' : needsQuote m.data = true := hq
  have hfield : csvField m = String.mk ('"' :: (escapeQuotes m.toList ++ ['"'])) := by
    simp [csvField, hq, hq']
  refine ⟨by simp [commentCells, hmsg, pyStrCell, pyStr], hfield, ?_⟩
  rw [hfield]
  show parseCsvField ('"' :: (escapeQuotes m.toList ++ ['"'])) = some (m.toList, [])
  simp [parseCsvField, parseQuotedBody_escape]

theorem csv_message_roundtrip_witness :
    csvField "a,b\nc" = String.mk ('"' :: (escapeQuotes "a,b\nc".toList ++ ['"']))
    ∧ parseCsvField (csvField "a,b\nc").toList = some ("a,b\nc".toList, []) := by
  have h := csv_message_roundtrip
    { comment_id := .str "1", created_time := .str "t", author_id := .null,
      author_name := .null, message := .str "a,b\nc", parent_id := .null,
      like_count := .null } "a,b\nc" rfl (by decide) (by decide)
  exact ⟨h.2.1, h.2.2⟩

/-! ### Identifier resolution (`extract_post_id`) -/

/-- Python `str.split(sep)` for a one-character separator, on
character lists (`"".split(sep)` is `[""]`). -/
def splitOnCharList (sep : Char) : List Char → List (List Char)
  | [] => [[]]
  | c :: rest =>
    let r := splitOnCharList sep rest
    if c = sep then [] :: r
    else
      match r with
      | [] => [[c]]
      | h :: t => (c :: h) :: t

/-- Split a character list at the first occurrence of `sep`; `none`
when `sep` does not occur. -/
def splitListAtFirst (sep : Char) : List Char → Option (List Char × List Char)
  | [] => none
  | x :: rest =>
    if x = sep then some ([], rest)
    else (splitListAtFirst sep rest).map fun p => (x :: p.1, p.2)

/-- Split at the last occurrence of `sep` (Python `rfind`). -/
def splitAtLastChar (sep : Char) (l : List Char) : Option (List Char × List Char) :=
  (splitListAtFirst sep l.reverse).map fun p => (p.2.reverse, p.1.reverse)

/-- Characters allowed in a URL scheme (`urllib.parse.scheme_chars`). -/
def isSchemeChar (c : Char) : Bool :=
  c.isAlpha || c.isDigit || c == '+' || c == '-' || c == '.'

/-- The result tuple of `urllib.parse.urlparse`. -/
structure UrlParts where
  scheme : String
  netloc : String
  path : String
  pathParams : String
  query : String
  fragment : String

/-- Model of `urllib.parse._splitparams`: split `;params` off the last
path segment. -/
def splitparams (path : List Char) : List Char × List Char :=
  if path.contains ';' then
    if path.contains '/' then
      match splitAtLastChar '/' path with
      | some (before, after) =>
        match splitListAtFirst ';' after with
        | some (a1, a2) => (before ++ '/' :: a1, a2)
        | none => (path, [])
      | none => (path, [])
    else
      match splitListAtFirst ';' path with
      | some (a1, a2) => (a1, a2)
      | none => (path, [])
  else (path, [])

/-- Model of `urllib.parse.urlparse` (scheme, then `//netloc`, then
fragment, then query, then `;params`).  The stdlib's `_checknetloc`
validation, which only ever raises on certain non-ASCII netlocs, is
not modelled. -/
def urlparse (url : String) : UrlParts :=
  let cs := url.toList
  let schemeRest : List Char × List Char :=
    match splitListAtFirst ':' cs with
    | some (before, _) =>
      if !before.isEmpty && (before.headD ' ').isAlpha && before.all isSchemeChar then
        match splitListAtFirst ':' cs with
        | some (b, a) => (b.map Char.toLower, a)
        | none => ([], cs)
      else ([], cs)
    | none => ([], cs)
  let rest0 := schemeRest.2
  let netlocRest : List Char × List Char :=
    match rest0 with
    | '/' :: '/' :: tail =>
      (tail.takeWhile fun c => !(c == '/' || c == '?' || c == '#'),
       tail.dropWhile fun c => !(c == '/' || c == '?' || c == '#'))
    | _ => ([], rest0)
  let rest1 := netlocRest.2
  let fragSplit : List Char × List Char :=
    match splitListAtFirst '#' rest1 with
    | some (b, a) => (b, a)
    | none => (rest1, [])
  let querySplit : List Char × List Char :=
    match splitListAtFirst '?' fragSplit.1 with
    | some (b, a) => (b, a)
    | none => (fragSplit.1, [])
  let pathSplit := splitparams querySplit.1
  { scheme := String.mk schemeRest.1
    netloc := String.mk netlocRest.1
    path := String.mk pathSplit.1
    pathParams := String.mk pathSplit.2
    query := String.mk querySplit.2
    fragment := String.mk fragSplit.2 }

/-- Model of `urllib.parse.parse_qs` key/value splitting with the
default arguments (`keep_blank_values=False`): fields split on `&`,
each field split at its first `=`; fields without `=` or with an empty
value are dropped.  The stdlib's percent- and plus-decoding of names
and values is not modelled: `extract_post_id` consults only key
membership and the first value, and the claims quantify over queries
through this splitting. -/
def parse_qsl (qs : String) : List (String × String) :=
  (splitOnCharList '&' qs.toList).foldr
    (fun field acc =>
      if field.isEmpty then acc
      else
        match splitListAtFirst '=' field with
        | none => acc
        | some (n, v) =>
          if v.isEmpty then acc else (String.mk n, String.mk v) :: acc)
    []

/-- Value of `query[key][0]` of the `parse_qs` dict: the first value bound to
`key`; `none` exactly when `key not in query`. -/
def queryFirst (qs : List (String × String)) (key : String) : Option String :=
  (qs.find? fun kv => kv.1 == key).map fun kv => kv.2

/-- The `_` character class of `POST_ID_PATTERN`. -/
def isUnderscore (c : Char) : Bool := c == '_'

/-- One attempted match of `POST_ID_PATTERN = (\d+)_+(\d+)` anchored at
the head of the input.  The three character classes are pairwise
disjoint, so each greedy quantifier takes exactly the maximal run and
no backtracking can change the outcome. -/
def matchPostIdAt (cs : List Char) : Option (List Char) :=
  if (cs.takeWhile Char.isDigit).isEmpty
      || ((cs.dropWhile Char.isDigit).takeWhile isUnderscore).isEmpty
      || (((cs.dropWhile Char.isDigit).dropWhile isUnderscore).takeWhile Char.isDigit).isEmpty
  then none
  else some (cs.takeWhile Char.isDigit
    ++ (cs.dropWhile Char.isDigit).takeWhile isUnderscore
    ++ ((cs.dropWhile Char.isDigit).dropWhile isUnderscore).takeWhile Char.isDigit)

/-- Model of `re.search` with `POST_ID_PATTERN`: attempt a match at each
position from the left; the leftmost succeeding position wins. -/
def searchPostId : List Char → Option (List Char)
  | [] => none
  | c :: rest =>
    match matchPostIdAt (c :: rest) with
    | some m => some m
    | none => searchPostId rest

/-- Result of `POST_ID_PATTERN.search(post_url)` as `match.group(0)`. -/
def postIdSearch (s : String) : Option String :=
  (searchPostId s.toList).map fun l => String.mk l

/-- Resolution rule 1: both `story_fbid` and `id` appear in the parsed
query; the identifier is `{id[0]}_{story_fbid[0]}`. -/
def storyFbidRule (post_url : String) : Option String :=
  let query := parse_qsl (urlparse post_url).query
  match queryFirst query "story_fbid", queryFirst query "id" with
  | some fb, some i => some (i ++ "_" ++ fb)
  | _, _ => none

/-- Value of `[segment for segment in parsed.path.split("/") if segment]`. -/
def pathSegments (post_url : String) : List String :=
  ((splitOnCharList '/' (urlparse post_url).path.toList).map fun l => String.mk l).filter
    fun s => !s.isEmpty

/-- Python `str.isdigit` restricted to ASCII digits (the only digits
appearing in Graph API URLs). -/
def pyIsDigit (s : String) : Bool := !s.isEmpty && s.toList.all Char.isDigit

/-- Resolution rule 3: a literal `posts` segment with a following
segment; the identifier is `{parts[0]}_{parts[index+1]}`.  When
`posts` is the last segment the code falls through. -/
def postsRule (post_url : String) : Option String :=
  let parts := pathSegments post_url
  if parts.contains "posts" then
    let idx := parts.indexOf "posts"
    if idx + 1 < parts.length then
      some (parts.getD 0 "" ++ "_" ++ parts.getD (idx + 1) "")
    else none
  else none

/-- Resolution rule 4: a non-empty path of exactly one all-digit
segment is returned as the post id itself. -/
def singleSegmentRule (post_url : String) : Option String :=
  let parts := pathSegments post_url
  if !parts.isEmpty then
    if parts.length = 1 && pyIsDigit (parts.getD 0 "") then some (parts.getD 0 "")
    else none
  else none

/-- Model of `extract_post_id`: the four resolution rules in source order, else
`ValueError`. -/
def extract_post_id (post_url : String) : Except PyError String :=
  match storyFbidRule post_url with
  | some r => .ok r
  | none =>
    match postIdSearch post_url with
    | some m => .ok m
    | none =>
      match postsRule post_url with
      | some r => .ok r
      | none =>
        match singleSegmentRule post_url with
        | some r => .ok r
        | none =>
          .error (.valueError
            "Unable to derive post id from URL. Provide a post id explicitly with --post-id.")

/-- C7: whenever the parsed query binds both `story_fbid` (first value
`P`) and `id` (first value `Q`), resolution returns exactly `Q_P`, no
matter what any later rule would say. -/
theorem story_fbid_rule_first (url P Q : String)
    (hfb : queryFirst (parse_qsl (urlparse url).query) "story_fbid" = some P)
    (hid : queryFirst (parse_qsl (urlparse url).query) "id" = some Q) :
    extract_post_id url = .ok (Q ++ "_" ++ P) := by
  simp [extract_post_id, storyFbidRule, hfb, hid]

theorem story_fbid_rule_first_witness :
    queryFirst (parse_qsl (urlparse
      "https://www.facebook.com/story.php?story_fbid=111&id=222").query) "story_fbid"
      = some "111"
    ∧ extract_post_id "https://www.facebook.com/story.php?story_fbid=111&id=222"
      = .ok "222_111" :=
  ⟨rfl, story_fbid_rule_first "https://www.facebook.com/story.php?story_fbid=111&id=222"
    "111" "222" rfl rfl⟩

/-- C6: when none of the four resolution rules matches, resolution
raises `ValueError` (the spec's `ResolutionError`) and returns no
identifier. -/
theorem extract_post_id_no_match_raises (url : String)
    (h1 : storyFbidRule url = none)
    (h2 : postIdSearch url = none)
    (h3 : postsRule url = none)
    (h4 : singleSegmentRule url = none) :
    extract_post_id url = .error (.valueError
      "Unable to derive post id from URL. Provide a post id explicitly with --post-id.") := by
  simp [extract_post_id, h1, h2, h3, h4]

theorem extract_post_id_no_match_raises_witness :
    storyFbidRule "https://www.facebook.com/groups/cooking/about" = none
    ∧ extract_post_id "https://www.facebook.com/groups/cooking/about"
      = .error (.valueError
        "Unable to derive post id from URL. Provide a post id explicitly with --post-id.") :=
  ⟨rfl, extract_post_id_no_match_raises "https://www.facebook.com/groups/cooking/about"
    rfl rfl rfl rfl⟩

/-- A token of the shape matched by `POST_ID_PATTERN`: digits, then
one or more underscores, then digits. -/
def IsPostIdShape (t : List Char) : Prop :=
  ∃ a b c, a ≠ [] ∧ b ≠ [] ∧ c ≠ []
    ∧ (∀ x ∈ a, x.isDigit = true) ∧ (∀ x ∈ b, x = '_') ∧ (∀ x ∈ c, x.isDigit = true)
    ∧ t = a ++ b ++ c

theorem takeWhile_append_of_all {α} (p : α → Bool) (xs ys : List α)
    (h : ∀ x ∈ xs, p x = true) :
    (xs ++ ys).takeWhile p = xs ++ ys.takeWhile p := by
  induction xs with
  | nil => simp
  | cons x xs ih =>
    have hx := h x (by simp)
    simp only [List.cons_append, List.takeWhile_cons, hx]
    simp [ih fun y hy => h y (by simp [hy])]

theorem dropWhile_append_of_all {α} (p : α → Bool) (xs ys : List α)
    (h : ∀ x ∈ xs, p x = true) :
    (xs ++ ys).dropWhile p = ys.dropWhile p := by
  induction xs with
  | nil => simp
  | cons x xs ih =>
    have hx := h x (by simp)
    simp only [List.cons_append, List.dropWhile_cons, hx]
    simp [ih fun y hy => h y (by simp [hy])]

theorem mem_takeWhile_pred {α} (p : α → Bool) :
    ∀ (l : List α) (x : α), x ∈ l.takeWhile p → p x = true := by
  intro l
  induction l with
  | nil => intro x hx; simp [List.takeWhile_nil] at hx
  | cons y l ih =>
    intro x hx
    rw [List.takeWhile_cons] at hx
    by_cases hy : p y = true
    · simp [hy] at hx
      rcases hx with hx | hx
      · rw [hx]; exact hy
      · exact ih x hx
    · simp [Bool.of_not_eq_true hy] at hx

/-- A successful anchored match has the pattern's shape and is an
initial segment of the input. -/
theorem matchPostIdAt_sound (cs m : List Char) (h : matchPostIdAt cs = some m) :
    IsPostIdShape m ∧ ∃ rest, cs = m ++ rest := by
  unfold matchPostIdAt at h
  split at h
  · exact absurd h (by simp)
  · rename_i hcond
    injection h with h
    rcases Bool.or_eq_false_iff.mp (Bool.of_not_eq_true hcond) with ⟨h12, h3⟩
    rcases Bool.or_eq_false_iff.mp h12 with ⟨h1, h2⟩
    subst h
    constructor
    · refine ⟨cs.takeWhile Char.isDigit,
        (cs.dropWhile Char.isDigit).takeWhile isUnderscore,
        ((cs.dropWhile Char.isDigit).dropWhile isUnderscore).takeWhile Char.isDigit,
        ?_, ?_, ?_, ?_, ?_, ?_, rfl⟩
      · exact fun hnil => by simp [hnil] at h1
      · exact fun hnil => by simp [hnil] at h2
      · exact fun hnil => by simp [hnil] at h3
      · exact fun x hx => mem_takeWhile_pred Char.isDigit cs x hx
      · intro x hx
        have := mem_takeWhile_pred isUnderscore _ x hx
        simpa [isUnderscore] using this
      · exact fun x hx => mem_takeWhile_pred Char.isDigit _ x hx
    · refine ⟨((cs.dropWhile Char.isDigit).dropWhile isUnderscore).dropWhile Char.isDigit, ?_⟩
      rw [List.append_assoc, List.append_assoc]
      conv_lhs => rw [← List.takeWhile_append_dropWhile (p := Char.isDigit) (l := cs)]
      congr 1
      conv_lhs => rw [← List.takeWhile_append_dropWhile (p := isUnderscore)
        (l := cs.dropWhile Char.isDigit)]
      congr 1
      rw [List.takeWhile_append_dropWhile]

/-- Whatever `re.search` returns has the pattern's shape and occurs in
the input. -/
theorem searchPostId_sound :
    ∀ (cs m : List Char), searchPostId cs = some m →
      IsPostIdShape m ∧ ∃ pre post, cs = pre ++ m ++ post := by
  intro cs
  induction cs with
  | nil => intro m h; simp [searchPostId] at h
  | cons c rest ih =>
    intro m h
    rw [searchPostId] at h
    cases hm : matchPostIdAt (c :: rest) with
    | some m0 =>
      rw [hm] at h
      cases h
      rcases matchPostIdAt_sound _ _ hm with ⟨hshape, ⟨tail, htail⟩⟩
      exact ⟨hshape, [], tail, by simpa using htail⟩
    | none =>
      rw [hm] at h
      rcases ih m h with ⟨hshape, ⟨pre, post, hsplit⟩⟩
      exact ⟨hshape, c :: pre, post, by simp [hsplit]⟩

theorem isUnderscore_of_digit (x : Char) (h : x.isDigit = true) : isUnderscore x = false := by
  by_cases hx : x = '_'
  · subst hx; simp at h
  · simp [isUnderscore, hx]

theorem isDigit_of_underscore (x : Char) (h : x = '_') : x.isDigit = false := by
  subst h; decide

/-- An anchored match succeeds wherever a shaped token starts. -/
theorem matchPostIdAt_complete (t rest : List Char) (h : IsPostIdShape t) :
    matchPostIdAt (t ++ rest) ≠ none := by
  rcases h with ⟨a, b, c, ha, hb, hc, hda, hub, hdc, ht⟩
  subst ht
  cases b with
  | nil => exact absurd rfl hb
  | cons b0 b' =>
    cases c with
    | nil => exact absurd rfl hc
    | cons c0 c' =>
      have hb0 : b0 = '_' := hub b0 (by simp)
      have hbd : b0.isDigit = false := isDigit_of_underscore b0 hb0
      have hbu : isUnderscore b0 = true := by simp [isUnderscore, hb0]
      have hc0 : c0.isDigit = true := hdc c0 (by simp)
      have hcu : isUnderscore c0 = false := isUnderscore_of_digit c0 hc0
      have hd1 : ((a ++ (b0 :: b') ++ (c0 :: c')) ++ rest).takeWhile Char.isDigit = a := by
        rw [List.append_assoc, List.append_assoc, takeWhile_append_of_all Char.isDigit a _ hda]
        simp [List.takeWhile_cons, hbd]
      have hr1 : ((a ++ (b0 :: b') ++ (c0 :: c')) ++ rest).dropWhile Char.isDigit
          = (b0 :: b') ++ ((c0 :: c') ++ rest) := by
        rw [List.append_assoc, List.append_assoc, dropWhile_append_of_all Char.isDigit a _ hda]
        simp [List.dropWhile_cons, hbd]
      have hus : ((b0 :: b') ++ ((c0 :: c') ++ rest)).takeWhile isUnderscore = b0 :: b' := by
        rw [takeWhile_append_of_all isUnderscore _ _
          (fun x hx => by simp [isUnderscore, hub x hx])]
        simp [List.takeWhile_cons, hcu]
      have hr2 : ((b0 :: b') ++ ((c0 :: c') ++ rest)).dropWhile isUnderscore
          = (c0 :: c') ++ rest := by
        rw [dropWhile_append_of_all isUnderscore _ _
          (fun x hx => by simp [isUnderscore, hub x hx])]
        simp [List.dropWhile_cons, hcu]
      intro hnone
      unfold matchPostIdAt at hnone
      rw [hd1, hr1, hus, hr2] at hnone
      have hcond : (a.isEmpty || (b0 :: b').isEmpty
          || (((c0 :: c') ++ rest).takeWhile Char.isDigit).isEmpty) = false := by
        cases a with
        | nil => exact absurd rfl ha
        | cons a0 a' => simp [List.takeWhile_cons, hc0]
      rw [hcond] at hnone
      exact absurd hnone (by simp)

/-- The search succeeds whenever a shaped token occurs anywhere. -/
theorem searchPostId_complete :
    ∀ (pre t post : List Char), IsPostIdShape t →
      searchPostId (pre ++ t ++ post) ≠ none := by
  intro pre
  induction pre with
  | nil =>
    intro t post hshape hnone
    have hne : t ≠ [] := by
      rcases hshape with ⟨a, b, c, ha, _, _, _, _, _, ht⟩
      cases a with
      | nil => exact absurd rfl ha
      | cons a0 a' => subst ht; simp
    cases t with
    | nil => exact absurd rfl hne
    | cons t0 t' =>
      have hnone' : searchPostId (t0 :: (t' ++ post)) = none := by simpa using hnone
      rw [searchPostId] at hnone'
      cases hm : matchPostIdAt (t0 :: (t' ++ post)) with
      | some m => rw [hm] at hnone'; simp at hnone'
      | none => exact matchPostIdAt_complete (t0 :: t') post hshape (by simpa using hm)
  | cons p pre' ih =>
    intro t post hshape hnone
    have hnone' : searchPostId (p :: (pre' ++ t ++ post)) = none := by simpa using hnone
    rw [searchPostId] at hnone'
    cases hm : matchPostIdAt (p :: (pre' ++ t ++ post)) with
    | some m => rw [hm] at hnone'; simp at hnone'
    | none =>
      rw [hm] at hnone'
      exact ih t post hshape hnone'

/-- C3: when the `story_fbid`/`id` query rule does not apply, the
whole-URL regex rule decides the result: whatever `re.search` matches
is returned verbatim (a digits-underscores-digits token occurring in
the URL, with its underscore run preserved), taking priority over both
path-based rules; and the search succeeds whenever such a token occurs
anywhere in the URL. -/
theorem regex_rule_priority (url : String)
    (hq : storyFbidRule url = none) :
    (∀ m, postIdSearch url = some m →
      extract_post_id url = .ok m
      ∧ IsPostIdShape m.toList
      ∧ ∃ pre post, url.toList = pre ++ m.toList ++ post)
    ∧ (∀ t pre post, IsPostIdShape t → url.toList = pre ++ t ++ post →
      ∃ m, postIdSearch url = some m) := by
  constructor
  · intro m hm
    have hm0 : (searchPostId url.toList).map (fun l => String.mk l) = some m := hm
    rcases Option.map_eq_some'.mp hm0 with ⟨l, hl, hml⟩
    rcases searchPostId_sound url.toList l hl with ⟨hshape, hocc⟩
    refine ⟨by simp [extract_post_id, hq, hm], ?_, ?_⟩
    · rw [← hml]
      exact hshape
    · rw [← hml]
      exact hocc
  · intro t pre post hshape hsplit
    cases hsearch : searchPostId url.toList with
    | none =>
      rw [hsplit] at hsearch
      exact absurd hsearch (searchPostId_complete pre t post hshape)
    | some l =>
      refine ⟨String.mk l, ?_⟩
      show (searchPostId url.toList).map (fun x => String.mk x) = some (String.mk l)
      rw [hsearch]
      rfl

theorem regex_rule_priority_witness :
    storyFbidRule "https://www.facebook.com/page/posts/12345__678" = none
    ∧ postIdSearch "https://www.facebook.com/page/posts/12345__678" = some "12345__678"
    ∧ extract_post_id "https://www.facebook.com/page/posts/12345__678" = .ok "12345__678" :=
  ⟨rfl, rfl,
    ((regex_rule_priority "https://www.facebook.com/page/posts/12345__678" rfl).1
      "12345__678" rfl).1⟩

/-! ### Paginated collection (`CommentCollector.collect` / `_fetch_page`) -/

/-- Uppercase hexadecimal digit, as `urllib.parse.quote` emits. -/
def hexDigitChar (n : Nat) : Char :=
  if n < 10 then Char.ofNat (48 + n) else Char.ofNat (55 + n)

/-- The `%XX` percent-encoding of one byte. -/
def percentEncodeByte (b : UInt8) : List Char :=
  ['%', hexDigitChar (b.toNat / 16), hexDigitChar (b.toNat % 16)]

/-- The always-safe bytes of `urllib.parse.quote`: ASCII letters,
digits and `-._~`. -/
def isSafeByte (b : UInt8) : Bool :=
  (65 ≤ b.toNat && b.toNat ≤ 90) || (97 ≤ b.toNat && b.toNat ≤ 122)
    || (48 ≤ b.toNat && b.toNat ≤ 57)
    || b.toNat == 45 || b.toNat == 46 || b.toNat == 95 || b.toNat == 126

/-- Model of `urllib.parse.quote_plus` with empty `safe`: UTF-8 encode, keep safe
bytes, turn spaces into `+`, percent-encode everything else. -/
def quote_plus (s : String) : String :=
  String.mk ((s.toUTF8.toList).foldr
    (fun b acc =>
      if b.toNat == 32 then '+' :: acc
      else if isSafeByte b then Char.ofNat b.toNat :: acc
      else percentEncodeByte b ++ acc)
    [])

/-- Model of `urllib.parse.urlencode` over the parameter dict in insertion
order. -/
def urlencode (ps : List (String × String)) : String :=
  String.intercalate "&" (ps.map fun p => quote_plus p.1 ++ "=" ++ quote_plus p.2)

/-- Model of the URL construction of `_fetch_page`: `if params:` appends the encoded
parameters, with `&` when the URL already contains `?`, else `?`. -/
def buildRequestUrl (url : String) (params : Option (List (String × String))) : String :=
  match params with
  | none => url
  | some ps =>
    if ps.isEmpty then url
    else url ++ (if url.toList.contains '?' then "&" else "?") ++ urlencode ps

/-- The comments-endpoint URL `collect` starts from. -/
def baseUrl (api_version post_id : String) : String :=
  "https://graph.facebook.com/" ++ api_version ++ "/" ++ post_id ++ "/comments"

/-- The initial parameter dict of `collect` (`urlencode` applies
`str()` to the int literal `100`, giving `"100"`). -/
def initialParams (access_token : String) : List (String × String) :=
  [("access_token", access_token), ("summary", "true"), ("filter", "stream"),
   ("limit", "100")]

/-- The loop body's reading of one fetched payload: iterate
`payload.get("data", [])` through normalization, then read
`payload.get("paging", {}).get("next")`. -/
def parsePage (payload : Json) : Except PyError (List Comment × Json) :=
  match asObj payload with
  | .error e => .error e
  | .ok fields =>
    match asArr (pyGetD fields "data" (.arr [])) with
    | .error e => .error e
    | .ok items =>
      match commentsOfData items with
      | .error e => .error e
      | .ok cs =>
        match asObj (pyGetD fields "paging" (.obj [])) with
        | .error e => .error e
        | .ok pagingFields => .ok (cs, pyGet pagingFields "next")

/-- How one run of `collect` can end. -/
inductive Outcome where
  | ok (comments : List Comment)
  | error (e : PyError)
  | fuelOut

/-- The outcome of a run together with the URLs actually requested, in
order. -/
structure RunResult where
  outcome : Outcome
  requests : List String

/-- The `while url:` loop of `collect`.  `server` models the HTTP
transport plus `json.loads`: the parsed payload for a request URL, or
the raised transport/parse error.  `url` is the loop variable (a
Python value: the base URL string, then whatever `paging.get("next")`
returned); `params` is cleared to `None` after the first request.
`fuel` bounds the number of iterations modelled — the source loop has
no bound and diverges on an always-present cursor. -/
def collectLoop (server : String → Except PyError Json) :
    Nat → Json → Option (List (String × String)) → RunResult
  | 0, url, _ => if pyTruthy url then ⟨.fuelOut, []⟩ else ⟨.ok [], []⟩
  | fuel + 1, url, params =>
    if pyTruthy url then
      match url with
      | .str u =>
        let requestUrl := buildRequestUrl u params
        match server requestUrl with
        | .error e => ⟨.error e, [requestUrl]⟩
        | .ok payload =>
          match parsePage payload with
          | .error e => ⟨.error e, [requestUrl]⟩
          | .ok (cs, nextV) =>
            let r := collectLoop server fuel nextV none
            ⟨match r.outcome with
              | .ok cs2 => .ok (cs ++ cs2)
              | .error e => .error e
              | .fuelOut => .fuelOut,
             requestUrl :: r.requests⟩
      | _ => ⟨.error (.typeError "url must be str"), []⟩
    else ⟨.ok [], []⟩

/-- Model of `CommentCollector.collect`: run the loop from the base URL with
the initial parameter dict. -/
def collect (server : String → Except PyError Json) (fuel : Nat)
    (access_token api_version post_id : String) : RunResult :=
  collectLoop server fuel (.str (baseUrl api_version post_id))
    (some (initialParams access_token))

/-- A response payload with the given records and, when given, a
`paging.next` URL. -/
def mkPage (data : List Json) (next : Option String) : Json :=
  .obj (("data", Json.arr data) ::
    (match next with
     | some n => [("paging", Json.obj [("next", Json.str n)])]
     | none => []))

theorem pyTruthy_str (u : String) (hu : u ≠ "") : pyTruthy (.str u) = true := by
  cases hcase : u.isEmpty with
  | true => exact absurd ((String.isEmpty_iff u).mp hcase) hu
  | false => simp [pyTruthy, hcase]

theorem collectLoop_falsy (server : String → Except PyError Json) (fuel : Nat)
    (url : Json) (h : pyTruthy url = false) :
    collectLoop server fuel url none = ⟨.ok [], []⟩ := by
  cases fuel <;> simp [collectLoop, h]

theorem collectLoop_step_ok (server : String → Except PyError Json) (fuel : Nat)
    (u : String) (params : Option (List (String × String))) (payload : Json)
    (cs : List Comment) (nextV : Json)
    (hu : u ≠ "")
    (hserver : server (buildRequestUrl u params) = .ok payload)
    (hparse : parsePage payload = .ok (cs, nextV)) :
    collectLoop server (fuel + 1) (.str u) params =
      ⟨match (collectLoop server fuel nextV none).outcome with
        | .ok cs2 => .ok (cs ++ cs2)
        | .error e => .error e
        | .fuelOut => .fuelOut,
       buildRequestUrl u params :: (collectLoop server fuel nextV none).requests⟩ := by
  simp [collectLoop, pyTruthy_str u hu, hserver, hparse]

theorem collectLoop_requests_head (server : String → Except PyError Json) (fuel : Nat)
    (s : String) (hs : s ≠ "") :
    ∃ rest, (collectLoop server (fuel + 1) (.str s) none).requests = s :: rest := by
  cases hs2 : server (buildRequestUrl s none) with
  | error e =>
    refine ⟨[], ?_⟩
    have hs2plain : server s = .error e := hs2
    simp [collectLoop, pyTruthy_str s hs, hs2plain, buildRequestUrl]
  | ok payload =>
    cases hp : parsePage payload with
    | error e =>
      refine ⟨[], ?_⟩
      have hs2plain : server s = .ok payload := hs2
      simp [collectLoop, pyTruthy_str s hs, hs2plain, hp, buildRequestUrl]
    | ok pair =>
      obtain ⟨cs, nextV⟩ := pair
      refine ⟨(collectLoop server fuel nextV none).requests, ?_⟩
      rw [collectLoop_step_ok server fuel s none payload cs nextV hs hs2 hp]
      rfl

/-- C1 counterexample: the claim's "terminates exactly when a response
omits `paging.next`" fails — a response that does contain `paging.next`
(with the empty-string value) also ends the loop, because the guard is
`while url:` truthiness, not key presence: exactly one request is made
and collection ends normally. -/
theorem collect_empty_next_counterexample :
    parsePage (mkPage [] (some "")) = .ok ([], .str "")
    ∧ collectLoop (fun _ => .ok (mkPage [] (some ""))) 5 (.str "u") none
      = ⟨.ok [], ["u"]⟩ :=
  ⟨rfl, rfl⟩

/-- C1 (amended): whenever the fetched response carries a truthy
`paging.next` string, the following request is issued against exactly
that URL — no parameter from the initial set is re-appended — and the
loop ends normally, with no further request, exactly when
`paging.next` is absent, `null`, or otherwise falsy (such as the empty
string). -/
theorem collect_follows_truthy_next_verbatim
    (server : String → Except PyError Json) (fuel : Nat) (u : String)
    (params : Option (List (String × String))) (payload : Json)
    (cs : List Comment) (nextV : Json)
    (hu : u ≠ "")
    (hserver : server (buildRequestUrl u params) = .ok payload)
    (hparse : parsePage payload = .ok (cs, nextV)) :
    (∀ nxt : String, nextV = .str nxt → nxt ≠ "" →
      buildRequestUrl nxt none = nxt
      ∧ ∃ rest, (collectLoop server (fuel + 1 + 1) (.str u) params).requests
          = buildRequestUrl u params :: nxt :: rest)
    ∧ (pyTruthy nextV = false →
      collectLoop server (fuel + 1 + 1) (.str u) params
        = ⟨.ok cs, [buildRequestUrl u params]⟩) := by
  constructor
  · intro nxt hnxt hne
    subst hnxt
    refine ⟨rfl, ?_⟩
    rcases collectLoop_requests_head server fuel nxt hne with ⟨rest, hrest⟩
    refine ⟨rest, ?_⟩
    rw [collectLoop_step_ok server (fuel + 1) u params payload cs (.str nxt) hu hserver hparse]
    show buildRequestUrl u params :: (collectLoop server (fuel + 1) (.str nxt) none).requests
      = buildRequestUrl u params :: nxt :: rest
    rw [hrest]
  · intro hfalse
    rw [collectLoop_step_ok server (fuel + 1) u params payload cs nextV hu hserver hparse,
      collectLoop_falsy server (fuel + 1) nextV hfalse]
    simp

/-- Two-page demonstration transport for the pagination theorems. -/
def demoServer : String → Except PyError Json := fun url =>
  if url = "a" then .ok (mkPage [] (some "b"))
  else if url = "b" then .ok (mkPage [] none)
  else .error (.httpError "HTTP Error 404: Not Found")

theorem collect_follows_truthy_next_verbatim_witness :
    buildRequestUrl "b" none = "b"
    ∧ ∃ rest, (collectLoop demoServer 3 (.str "a") none).requests = "a" :: "b" :: rest := by
  have h := collect_follows_truthy_next_verbatim demoServer 1 "a" none
    (mkPage [] (some "b")) [] (.str "b") (by decide) rfl rfl
  rcases h.1 "b" rfl (by decide) with ⟨hbuild, hreq⟩
  exact ⟨hbuild, hreq⟩

/-- Serve a finite chain of pages keyed by request URL: each page's
`paging.next` is the next entry's URL; the last page omits `paging`. -/
def chainServer : List (String × List Json) → String → Except PyError Json
  | [], _ => .error (.httpError "HTTP Error 404: Not Found")
  | (u, d) :: rest, url =>
    if url = u then .ok (mkPage d (rest.head?.map Prod.fst))
    else chainServer rest url

theorem parsePage_mkPage_none (d : List Json) (cs : List Comment)
    (h : commentsOfData d = .ok cs) :
    parsePage (mkPage d none) = .ok (cs, .null) := by
  simp [parsePage, mkPage, asObj, asArr, pyGetD, pyGet, dictGet, h]

theorem parsePage_mkPage_some (d : List Json) (cs : List Comment) (n : String)
    (h : commentsOfData d = .ok cs) :
    parsePage (mkPage d (some n)) = .ok (cs, .str n) := by
  simp [parsePage, mkPage, asObj, asArr, pyGetD, pyGet, dictGet, h]

theorem baseUrl_ne_empty (v p : String) : baseUrl v p ≠ "" := by
  intro h
  have hlen := congrArg String.length h
  simp only [baseUrl, String.length_append] at hlen
  have h1 : "https://graph.facebook.com/".length = 27 := rfl
  have h2 : "/".length = 1 := rfl
  have h3 : "/comments".length = 9 := rfl
  have h4 : "".length = 0 := rfl
  rw [h1, h2, h3, h4] at hlen
  omega

theorem commentsOfData_length :
    ∀ (items : List Json) (cs : List Comment), commentsOfData items = .ok cs →
      cs.length = items.length := by
  intro items
  induction items with
  | nil =>
    intro cs h
    simp only [commentsOfData] at h
    injection h with h
    rw [← h]
    rfl
  | cons item rest ih =>
    intro cs h
    cases hc : commentFromJson item with
    | error e => simp [commentsOfData, hc] at h
    | ok c =>
      cases hrest : commentsOfData rest with
      | error e => simp [commentsOfData, hc, hrest] at h
      | ok cs2 =>
        simp only [commentsOfData, hc, hrest] at h
        injection h with h
        rw [← h]
        simp [ih cs2 hrest]

theorem forall2_join_length (l : List (String × List Json)) (css : List (List Comment))
    (h : List.Forall₂ (fun (p : String × List Json) cs => commentsOfData p.2 = .ok cs) l css) :
    css.join.length = (l.map fun p => p.2.length).sum := by
  induction h with
  | nil => simp
  | @cons p cs l2 css2 hrel htail ih =>
    simp [ih, commentsOfData_length p.2 cs hrel]

theorem collect_chain_aux (S : String → Except PyError Json)
    (pages : List (String × List Json)) :
    ∀ (first : String × List Json) (css : List (List Comment)) (u : String)
      (params : Option (List (String × String))) (fuel : Nat),
      u ≠ "" →
      buildRequestUrl u params = first.1 →
      List.Forall₂ (fun (p : String × List Json) cs => commentsOfData p.2 = .ok cs)
        (first :: pages) css →
      ((first :: pages).map Prod.fst).Nodup →
      (∀ p ∈ pages, (p : String × List Json).1 ≠ "") →
      (∀ p ∈ first :: pages, S p.1 = chainServer (first :: pages) p.1) →
      pages.length + 2 ≤ fuel →
      (collectLoop S fuel (.str u) params).outcome = .ok css.join := by
  induction pages with
  | nil =>
    intro first css u params fuel hu hbuild hforall hnodup hne hS hfuel
    rcases List.forall₂_cons_left_iff.mp hforall with ⟨cs, css2, hrel, htail, rfl⟩
    obtain rfl : css2 = [] := List.forall₂_nil_left_iff.mp htail
    cases fuel with
    | zero => omega
    | succ f =>
      have hSfirst : S first.1 = .ok (mkPage first.2 none) := by
        have h0 := hS first (List.mem_cons_self first [])
        rw [h0]
        simp [chainServer]
      have hserver : S (buildRequestUrl u params) = .ok (mkPage first.2 none) := by
        rw [hbuild]; exact hSfirst
      have hstep := collectLoop_step_ok S f u params (mkPage first.2 none) cs .null hu
        hserver (parsePage_mkPage_none first.2 cs hrel)
      rw [collectLoop_falsy S f .null rfl] at hstep
      rw [hstep]
      simp
  | cons p2 rest ih =>
    intro first css u params fuel hu hbuild hforall hnodup hne hS hfuel
    rcases List.forall₂_cons_left_iff.mp hforall with ⟨cs, css2, hrel, htail, rfl⟩
    cases fuel with
    | zero => omega
    | succ f =>
      have hSfirst : S first.1 = .ok (mkPage first.2 (some p2.1)) := by
        have h0 := hS first (List.mem_cons_self first (p2 :: rest))
        rw [h0]
        simp [chainServer]
      have hserver : S (buildRequestUrl u params) = .ok (mkPage first.2 (some p2.1)) := by
        rw [hbuild]; exact hSfirst
      have hnodup2 : ((p2 :: rest).map Prod.fst).Nodup := by
        have hn := hnodup
        simp only [List.map_cons] at hn ⊢
        exact hn.of_cons
      have hne2 : ∀ p ∈ rest, (p : String × List Json).1 ≠ "" :=
        fun p hp => hne p (by simp [hp])
      have hS2 : ∀ p ∈ p2 :: rest, S p.1 = chainServer (p2 :: rest) p.1 := by
        intro p hp
        have h0 := hS p (List.mem_cons_of_mem first hp)
        have hpne : p.1 ≠ first.1 := by
          intro heq
          have hn := List.nodup_cons.mp
            (show (first.1 :: (p2 :: rest).map Prod.fst).Nodup by simpa using hnodup)
          exact hn.1 (heq ▸ List.mem_map_of_mem Prod.fst hp)
        rw [h0]
        simp [chainServer, hpne]
      have hfl : rest.length + 2 ≤ f := by
        simp only [List.length_cons] at hfuel
        omega
      have hih := ih p2 css2 p2.1 none f (hne p2 (by simp)) rfl htail hnodup2 hne2 hS2 hfl
      have hstep := collectLoop_step_ok S f u params (mkPage first.2 (some p2.1)) cs
        (.str p2.1) hu hserver (parsePage_mkPage_some first.2 cs p2.1 hrel)
      rw [hstep]
      rw [show RunResult.outcome
          ⟨match (collectLoop S f (.str p2.1) none).outcome with
            | .ok cs2 => .ok (cs ++ cs2)
            | .error e => .error e
            | .fuelOut => .fuelOut,
           buildRequestUrl u params :: (collectLoop S f (.str p2.1) none).requests⟩
          = match (collectLoop S f (.str p2.1) none).outcome with
            | .ok cs2 => .ok (cs ++ cs2)
            | .error e => .error e
            | .fuelOut => .fuelOut from rfl]
      rw [hih]
      simp

/-- C2: collecting over any finite chain of pages — each page's
`paging.next` naming the next page's non-empty, pairwise-distinct
request URL, the last page omitting it, and every record normalizing —
succeeds and returns exactly the pages' records page by page in chain
order, each page's records in within-page order, so the result length
is the total record count. -/
theorem collect_chain_roundtrip (tok ver pid : String)
    (first : String × List Json) (pages : List (String × List Json))
    (css : List (List Comment)) (fuel : Nat)
    (hfirst : first.1 = buildRequestUrl (baseUrl ver pid) (some (initialParams tok)))
    (hforall : List.Forall₂ (fun (p : String × List Json) cs => commentsOfData p.2 = .ok cs)
      (first :: pages) css)
    (hnodup : ((first :: pages).map Prod.fst).Nodup)
    (hne : ∀ p ∈ pages, (p : String × List Json).1 ≠ "")
    (hfuel : pages.length + 2 ≤ fuel) :
    (collect (chainServer (first :: pages)) fuel tok ver pid).outcome = .ok css.join
    ∧ css.join.length = ((first :: pages).map fun p => p.2.length).sum := by
  constructor
  · exact collect_chain_aux (chainServer (first :: pages)) pages first css
      (baseUrl ver pid) (some (initialParams tok)) fuel (baseUrl_ne_empty ver pid)
      hfirst.symm hforall hnodup hne (fun p hp => rfl) hfuel
  · exact forall2_join_length (first :: pages) css hforall

/-- A minimal normalized comment used by concrete instantiations. -/
def demoComment (s : String) : Comment :=
  { comment_id := .str s, created_time := .str "", author_id := .null, author_name := .null,
    message := .str "", parent_id := .null, like_count := .null }

theorem collect_chain_roundtrip_witness :
    (collect (chainServer
        [(buildRequestUrl (baseUrl "v19.0" "123") (some (initialParams "tok")),
          [Json.obj [("id", Json.str "c1")]]),
         ("https://graph.facebook.com/page2",
          [Json.obj [("id", Json.str "c2")], Json.obj [("id", Json.str "c3")]])])
      3 "tok" "v19.0" "123").outcome
      = .ok (List.join [[demoComment "c1"], [demoComment "c2", demoComment "c3"]])
    ∧ (List.join [[demoComment "c1"], [demoComment "c2", demoComment "c3"]]).length = 3 := by
  have h := collect_chain_roundtrip "tok" "v19.0" "123"
    (buildRequestUrl (baseUrl "v19.0" "123") (some (initialParams "tok")),
      [Json.obj [("id", Json.str "c1")]])
    [("https://graph.facebook.com/page2",
      [Json.obj [("id", Json.str "c2")], Json.obj [("id", Json.str "c3")]])]
    [[demoComment "c1"], [demoComment "c2", demoComment "c3"]] 3
    rfl
    (List.Forall₂.cons rfl (List.Forall₂.cons rfl List.Forall₂.nil))
    (by decide) (by decide) (by decide)
  exact ⟨h.1, by decide⟩

/-! ### CLI entry point (`main`) -/

/-- The parsed CLI arguments (`argparse` defaults applied:
`--post-id` absent is `None`, `--csv` defaults to `comments.csv`,
`--api-version` to `v19.0`). -/
structure Args where
  post_url : String
  access_token : String
  post_id : Option String
  csv : String
  api_version : String

/-- Value of `args.post_id or extract_post_id(args.post_url)`: a truthy
`--post-id` bypasses URL resolution. -/
def resolvedPostId (args : Args) : Except PyError String :=
  match args.post_id with
  | some s => if !s.isEmpty then .ok s else extract_post_id args.post_url
  | none => extract_post_id args.post_url

/-- Model of `print_sample`: one line per comment of the first ten,
`- {author or "Unknown author"}: {message}`. -/
def printSample (comments : List Comment) : List String :=
  (comments.take 10).map fun c =>
    "- " ++ (if pyTruthy c.author_name then pyStr c.author_name else "Unknown author")
      ++ ": " ++ pyStr c.message

/-- How a `main` run can end: a returned exit code, an exception that
propagates out of `main` uncaught, or (never in Python, only under the
fuel bound) a run that did not finish. -/
inductive MainOutcome where
  | exitCode (code : Nat)
  | uncaught (e : PyError)
  | diverged
deriving DecidableEq

/-- The observable effects of one `main` run. -/
structure MainResult where
  outcome : MainOutcome
  stderrLines : List String
  stdoutLines : List String
  savedCsv : Option String

/-- The CLI `main`: resolve the post id (catching `ValueError`),
collect (catching `HTTPError` only), save the CSV and print the
summary and sample.  `URLError` and `JSONDecodeError` from the fetch
match no `except` clause and leave `main` uncaught. -/
def cliMain (server : String → Except PyError Json) (fuel : Nat) (args : Args) : MainResult :=
  match resolvedPostId args with
  | .error (.valueError msg) => ⟨.exitCode 1, [msg], [], none⟩
  | .error e => ⟨.uncaught e, [], [], none⟩
  | .ok post_id =>
    match (collect server fuel args.access_token args.api_version post_id).outcome with
    | .fuelOut => ⟨.diverged, [], [], none⟩
    | .error (.httpError msg) =>
        ⟨.exitCode 1, ["Failed to fetch comments: " ++ msg], [], none⟩
    | .error e => ⟨.uncaught e, [], [], none⟩
    | .ok comments =>
        ⟨.exitCode 0, [],
         ("Fetched " ++ toString comments.length ++ " comments. Saved to " ++ args.csv ++ ".")
           :: "First 10 comments:" :: printSample comments,
         some (save_comments_to_csv comments)⟩

/-- C8 counterexample: when the fetch fails with malformed JSON
(`json.loads` raises `JSONDecodeError`, a `ValueError` that the
`except HTTPError` clause does not catch) or with a network-level
`URLError`, `main` does not return exit code 1 — the exception
propagates out of `main` uncaught. -/
theorem main_uncaught_errors_counterexample :
    (cliMain (fun _ => .error (.jsonError "Expecting value: line 1 column 1 (char 0)")) 3
        { post_url := "https://x/1_2", access_token := "tok", post_id := some "123",
          csv := "comments.csv", api_version := "v19.0" }).outcome
      = .uncaught (.jsonError "Expecting value: line 1 column 1 (char 0)")
    ∧ (cliMain (fun _ => .error (.urlError "urlopen error timed out")) 3
        { post_url := "https://x/1_2", access_token := "tok", post_id := some "123",
          csv := "comments.csv", api_version := "v19.0" }).outcome
      = .uncaught (.urlError "urlopen error timed out")
    ∧ (cliMain (fun _ => .error (.jsonError "Expecting value: line 1 column 1 (char 0)")) 3
        { post_url := "https://x/1_2", access_token := "tok", post_id := some "123",
          csv := "comments.csv", api_version := "v19.0" }).outcome
      ≠ .exitCode 1 := by
  refine ⟨rfl, rfl, by decide⟩

/-- C8 (amended): `main` returns exit code 0 on success (writing the
CSV and printing the summary and sample); it returns exit code 1 with
the message on standard error for a resolution `ValueError` or an
HTTP-status `HTTPError` from the fetch; but any other fetch error —
network-level `URLError`, malformed-JSON `JSONDecodeError` — is not
caught and propagates out of `main` with nothing printed and no CSV
written. -/
theorem main_exit_codes (server : String → Except PyError Json) (fuel : Nat) (args : Args) :
    (∀ msg, resolvedPostId args = .error (.valueError msg) →
      cliMain server fuel args = ⟨.exitCode 1, [msg], [], none⟩)
    ∧ (∀ pid msg, resolvedPostId args = .ok pid →
      (collect server fuel args.access_token args.api_version pid).outcome
        = .error (.httpError msg) →
      cliMain server fuel args
        = ⟨.exitCode 1, ["Failed to fetch comments: " ++ msg], [], none⟩)
    ∧ (∀ pid comments, resolvedPostId args = .ok pid →
      (collect server fuel args.access_token args.api_version pid).outcome = .ok comments →
      cliMain server fuel args
        = ⟨.exitCode 0, [],
           ("Fetched " ++ toString comments.length ++ " comments. Saved to "
             ++ args.csv ++ ".") :: "First 10 comments:" :: printSample comments,
           some (save_comments_to_csv comments)⟩)
    ∧ (∀ pid e, resolvedPostId args = .ok pid →
      (collect server fuel args.access_token args.api_version pid).outcome = .error e →
      (∀ msg, e ≠ .httpError msg) →
      cliMain server fuel args = ⟨.uncaught e, [], [], none⟩) := by
  refine ⟨?_, ?_, ?_, ?_⟩
  · intro msg h
    simp [cliMain, h]
  · intro pid msg h1 h2
    simp [cliMain, h1, h2]
  · intro pid comments h1 h2
    simp [cliMain, h1, h2]
  · intro pid e h1 h2 hne
    cases e with
    | httpError msg => exact absurd rfl (hne msg)
    | valueError msg => simp [cliMain, h1, h2]
    | urlError msg => simp [cliMain, h1, h2]
    | jsonError msg => simp [cliMain, h1, h2]
    | attributeError msg => simp [cliMain, h1, h2]
    | typeError msg => simp [cliMain, h1, h2]

theorem main_exit_codes_witness :
    resolvedPostId
        { post_url := "https://x/1_2", access_token := "tok", post_id := some "123",
          csv := "comments.csv", api_version := "v19.0" } = .ok "123"
    ∧ cliMain (fun _ => .ok (mkPage [] none)) 3
        { post_url := "https://x/1_2", access_token := "tok", post_id := some "123",
          csv := "comments.csv", api_version := "v19.0" }
      = ⟨.exitCode 0, [],
         ["Fetched 0 comments. Saved to comments.csv.", "First 10 comments:"],
         some "comment_id,created_time,author_id,author_name,message,parent_id,like_count\r\n"⟩
    := by
  have h := (main_exit_codes (fun _ => .ok (mkPage [] none)) 3
    { post_url := "https://x/1_2", access_token := "tok", post_id := some "123",
      csv := "comments.csv", api_version := "v19.0" }).2.2.1 "123" [] rfl rfl
  exact ⟨rfl, h⟩
